import Mathlib

/-!
Verification of the expo native-module mock generator.

This file gives a shallow embedding of the two source programs:

* `packages/expo-module-scripts/bin/expo-module-mockgen.js` — the stub
  generator (type mapper, mock return statements, mocked functions, mocked
  type aliases, per-module output unit);
* the structure extractor script (`src/unnamed/part_001`) — sourcekitten
  driven extraction of `ModuleDefinition`s (named/unnamed/grouped
  declaration finders, view resolution, per-file processing loop).

JavaScript strings are embedded as `List Char`.  JavaScript `null` and
`undefined` values are embedded as `Option.none`; an uncaught thrown
`TypeError` is embedded by letting the embedding of the throwing function
return `Option.none` at its outer level.  External processes (the
sourcekitten `structure` and `cursorinfo` commands, and the file system)
are modelled as oracle functions bundled in an `Env`, following the spec's
external-interface boundary: the structure command returns either an error
or a parsed declaration tree, and the per-offset type lookup returns an
optional function signature (covering tool failure and the soft fallback).

Recursive JavaScript functions whose recursion is not structural are
embedded with an explicit fuel argument (the JavaScript recursion always
terminates because the input trees are finite; theorems quantify over all
fuel values, and fuel is threaded so that every concrete evaluation used
below reduces definitionally).
-/

/-- Characters of a JavaScript string. -/
abbrev Str := List Char

/-! ## String constants appearing in the source -/

def unknownChars : Str := "unknown".toList

def stringChars : Str := "String".toList

def boolChars : Str := "Bool".toList

def intChars : Str := "Int".toList

def floatChars : Str := "Float".toList

def doubleChars : Str := "Double".toList

def promiseChars : Str := "Promise".toList

def moduleDefChars : Str := "ModuleDefinition".toList

def viewChars : Str := "View".toList

def viewParamChars : Str := "view".toList

def nameDeclChars : Str := "Name".toList

def functionChars : Str := "Function".toList

def asyncFunctionChars : Str := "AsyncFunction".toList

def eventsChars : Str := "Events".toList

def propertyChars : Str := "Property".toList

def propChars : Str := "Prop".toList

def onCreateChars : Str := "OnCreate".toList

def closureKindChars : Str := "source.lang.swift.expr.closure".toList

def paramKindChars : Str := "source.lang.swift.decl.var.parameter".toList

/-! ## TypeScript AST fragments produced by the mock generator

`TsType` embeds exactly the `ts.factory` type nodes the generator builds:
keyword type nodes (void, any, string, boolean, number), array type nodes
and type-reference nodes (`createTypeReferenceNode` with an optional list
of type arguments, as used by `wrapWithAsync`). -/

inductive TsType where
  | voidK : TsType
  | anyK : TsType
  | stringK : TsType
  | booleanK : TsType
  | numberK : TsType
  | arrayType (elem : TsType) : TsType
  | typeReference (name : Str) (typeArgs : List TsType) : TsType
/-- Discriminates type-reference nodes, as `kind === ts.SyntaxKind.TypeReference`. -/
def TsType.isTypeReference : TsType → Bool
  | .typeReference _ _ => true
  | _ => false

/-- Literal expressions produced by `getMockReturnStatements`. -/
inductive Expr where
  | nullLit : Expr
  | stringLit (s : Str) : Expr
  | falseLit : Expr
  | numericLit (s : Str) : Expr
  | arrayLit : Expr
deriving DecidableEq, Repr

/-- Statements of a generated stub body (only return statements occur). -/
inductive Stmt where
  | returnStmt (e : Expr) : Stmt
deriving DecidableEq, Repr

/-! ## The type mapper

`isSwiftArray`, `maybeUnwrapSwiftArray` and `mapSwiftTypeToTsType` embed
lines 14–48 of `expo-module-mockgen.js`.  `mapSwiftTypeToTsType` recurses
on the bracket-stripped substring; the recursion is embedded structurally
with a fuel argument initialised to the string length (each unwrap removes
two characters, so the fuel never runs out on the actual call path; the
zero-fuel array arm below is unreachable from `mapSwiftTypeToTsType`). -/

def isSwiftArray (l : Str) : Bool :=
  decide (l.head? = some '[') && decide (l.getLast? = some ']')

/-- Embeds `type.substring(1, type.length - 1)` guarded by the array test. -/
def maybeUnwrapSwiftArray (l : Str) : Str :=
  if isSwiftArray l then (l.drop 1).dropLast else l

/-- Embeds the non-array `switch` of `mapSwiftTypeToTsType` (lines 34–47). -/
def mapSwiftSwitch (l : Str) : TsType :=
  if l = unknownChars then .anyK
  else if l = stringChars then .stringK
  else if l = boolChars then .booleanK
  else if l = intChars ∨ l = floatChars ∨ l = doubleChars then .numberK
  else .typeReference l []

/-- Fueled body of `mapSwiftTypeToTsType` for non-null input. -/
def mapSwiftTypeFuel : Nat → Str → TsType
  | _, [] => .voidK
  | 0, l => if isSwiftArray l then .voidK else mapSwiftSwitch l
  | fuel + 1, l =>
    if isSwiftArray l then .arrayType (mapSwiftTypeFuel fuel (maybeUnwrapSwiftArray l))
    else mapSwiftSwitch l

/-- Embeds `mapSwiftTypeToTsType` (lines 27–48): a falsy `type` (null or the
empty string) yields the void keyword node; otherwise the fueled body runs
with fuel equal to the string length. -/
def mapSwiftTypeToTsType : Option Str → TsType
  | none => .voidK
  | some l => mapSwiftTypeFuel l.length l

theorem isSwiftArray_ne_nil {l : Str} (h : isSwiftArray l = true) : l ≠ [] := by
  intro hnil
  subst hnil
  simp [isSwiftArray] at h

theorem length_maybeUnwrapSwiftArray {l : Str} (h : isSwiftArray l = true) :
    (maybeUnwrapSwiftArray l).length = l.length - 2 := by
  simp only [maybeUnwrapSwiftArray, h, if_true, List.length_dropLast, List.length_drop]
  omega

/-- The fueled body is stable once the fuel covers the string length. -/
theorem mapSwiftTypeFuel_stable :
    ∀ (f₁ f₂ : Nat) (l : Str), l.length ≤ f₁ → l.length ≤ f₂ →
      mapSwiftTypeFuel f₁ l = mapSwiftTypeFuel f₂ l := by
  intro f₁
  induction f₁ with
  | zero =>
    intro f₂ l h1 _
    have : l = [] := List.eq_nil_of_length_eq_zero (Nat.le_zero.mp h1)
    subst this
    cases f₂ <;> rfl
  | succ f ih =>
    intro f₂ l h1 h2
    cases l with
    | nil => cases f₂ <;> rfl
    | cons c cs =>
      have hpos : 0 < (c :: cs).length := by simp
      cases f₂ with
      | zero => omega
      | succ f₂' =>
        show mapSwiftTypeFuel (f + 1) (c :: cs) = mapSwiftTypeFuel (f₂' + 1) (c :: cs)
        simp only [mapSwiftTypeFuel]
        by_cases ha : isSwiftArray (c :: cs) = true
        · simp only [ha, if_true]
          have hlen := length_maybeUnwrapSwiftArray ha
          have hle1 : (maybeUnwrapSwiftArray (c :: cs)).length ≤ f := by
            rw [hlen]
            simp only [List.length_cons] at h1 ⊢
            omega
          have hle2 : (maybeUnwrapSwiftArray (c :: cs)).length ≤ f₂' := by
            rw [hlen]
            simp only [List.length_cons] at h2 ⊢
            omega
          rw [ih f₂' (maybeUnwrapSwiftArray (c :: cs)) hle1 hle2]
        · simp only [Bool.not_eq_true] at ha
          simp [ha]

/-- Unfolding of the type mapper on a bracketed string. -/
theorem mapSwiftTypeToTsType_wrap (t : Str) :
    mapSwiftTypeToTsType (some ('[' :: (t ++ [']'])))
      = TsType.arrayType (mapSwiftTypeToTsType (some t)) := by
  have harr : isSwiftArray ('[' :: (t ++ [']'])) = true := by
    have h1 : ('[' :: (t ++ [']'])).head? = some '[' := rfl
    have h2 : ('[' :: (t ++ [']'])).getLast? = some ']' := by
      rw [show ('[' :: (t ++ [']'])) = (('[' :: t) ++ [']']) from rfl]
      exact List.getLast?_concat _
    unfold isSwiftArray
    rw [h1, h2]
    decide
  have hunwrap : maybeUnwrapSwiftArray ('[' :: (t ++ [']'])) = t := by
    simp [maybeUnwrapSwiftArray, harr, List.dropLast_concat]
  have hlen : ('[' :: (t ++ [']'])).length = t.length + 2 := by simp
  show mapSwiftTypeFuel ('[' :: (t ++ [']'])).length ('[' :: (t ++ [']']))
      = TsType.arrayType (mapSwiftTypeFuel t.length t)
  rw [hlen]
  show (if isSwiftArray ('[' :: (t ++ [']'])) = true then
      TsType.arrayType (mapSwiftTypeFuel (t.length + 1)
        (maybeUnwrapSwiftArray ('[' :: (t ++ [']']))))
    else mapSwiftSwitch ('[' :: (t ++ [']']))) = TsType.arrayType (mapSwiftTypeFuel t.length t)
  rw [if_pos harr, hunwrap,
    mapSwiftTypeFuel_stable (t.length + 1) t.length t (Nat.le_succ _) (Nat.le_refl _)]

/-- C3.  For every type-name string `t`, mapping the bracketed string
`'[' + t + ']'` yields the array type of the mapping of `t`: array wrapping
and the one-bracket-at-a-time unwrap of `maybeUnwrapSwiftArray` compose
structurally at every nesting depth. -/
theorem C3_array_wrap_map (t : Str) :
    mapSwiftTypeToTsType (some ('[' :: (t ++ [']'])))
      = TsType.arrayType (mapSwiftTypeToTsType (some t)) :=
  mapSwiftTypeToTsType_wrap t

/-- C4.  `mapSwiftTypeToTsType` is total (it is a Lean function) and
realises exactly the documented case table: null and empty input map to
the void keyword; a bracketed string maps to the array type of the mapping
of its one-level unwrap; the marker `unknown` maps to the `any` keyword;
the five primitive names map to their keyword nodes; every other string
maps to a type-reference node carrying that name. -/
theorem C4_map_total_cases (l : Str) :
    mapSwiftTypeToTsType none = TsType.voidK ∧
    mapSwiftTypeToTsType (some []) = TsType.voidK ∧
    (isSwiftArray l = true →
      mapSwiftTypeToTsType (some l)
        = TsType.arrayType (mapSwiftTypeToTsType (some (maybeUnwrapSwiftArray l)))) ∧
    mapSwiftTypeToTsType (some unknownChars) = TsType.anyK ∧
    mapSwiftTypeToTsType (some stringChars) = TsType.stringK ∧
    mapSwiftTypeToTsType (some boolChars) = TsType.booleanK ∧
    mapSwiftTypeToTsType (some intChars) = TsType.numberK ∧
    mapSwiftTypeToTsType (some floatChars) = TsType.numberK ∧
    mapSwiftTypeToTsType (some doubleChars) = TsType.numberK ∧
    (l ≠ [] → isSwiftArray l = false → l ≠ unknownChars → l ≠ stringChars →
      l ≠ boolChars → l ≠ intChars → l ≠ floatChars → l ≠ doubleChars →
      mapSwiftTypeToTsType (some l) = TsType.typeReference l []) := by
  refine ⟨rfl, rfl, ?_, rfl, rfl, rfl, rfl, rfl, rfl, ?_⟩
  · intro harr
    have hne : l ≠ [] := isSwiftArray_ne_nil harr
    obtain ⟨c, cs, rfl⟩ := List.exists_cons_of_ne_nil hne
    show mapSwiftTypeFuel (c :: cs).length (c :: cs)
        = TsType.arrayType (mapSwiftTypeToTsType (some (maybeUnwrapSwiftArray (c :: cs))))
    have hlen : (c :: cs).length = cs.length + 1 := by simp
    rw [hlen]
    show (if isSwiftArray (c :: cs) = true then
        TsType.arrayType (mapSwiftTypeFuel cs.length (maybeUnwrapSwiftArray (c :: cs)))
      else mapSwiftSwitch (c :: cs))
      = TsType.arrayType (mapSwiftTypeToTsType (some (maybeUnwrapSwiftArray (c :: cs))))
    rw [if_pos harr]
    have hlen2 := length_maybeUnwrapSwiftArray harr
    have hle1 : (maybeUnwrapSwiftArray (c :: cs)).length ≤ cs.length := by
      simp only [hlen2, List.length_cons]
      omega
    show TsType.arrayType (mapSwiftTypeFuel cs.length (maybeUnwrapSwiftArray (c :: cs)))
      = TsType.arrayType (mapSwiftTypeFuel (maybeUnwrapSwiftArray (c :: cs)).length
          (maybeUnwrapSwiftArray (c :: cs)))
    rw [mapSwiftTypeFuel_stable cs.length (maybeUnwrapSwiftArray (c :: cs)).length
      (maybeUnwrapSwiftArray (c :: cs)) hle1 (Nat.le_refl _)]
  · intro hne harr hu hs hb hi hf hd
    obtain ⟨c, cs, rfl⟩ := List.exists_cons_of_ne_nil hne
    show mapSwiftTypeFuel (c :: cs).length (c :: cs) = TsType.typeReference (c :: cs) []
    have hlen : (c :: cs).length = cs.length + 1 := by simp
    rw [hlen]
    show (if isSwiftArray (c :: cs) = true then
        TsType.arrayType (mapSwiftTypeFuel cs.length (maybeUnwrapSwiftArray (c :: cs)))
      else mapSwiftSwitch (c :: cs)) = TsType.typeReference (c :: cs) []
    rw [if_neg (by simp [harr])]
    simp [mapSwiftSwitch, hu, hs, hb, hi, hf, hd]

/-- Witness for C4 at concrete inputs: `User` is none of the recognized
names, so it maps to a type-reference node named `User`. -/
theorem C4_map_total_cases_witness :
    mapSwiftTypeToTsType (some "User".toList) = TsType.typeReference "User".toList [] :=
  (C4_map_total_cases "User".toList).2.2.2.2.2.2.2.2.2 (by decide) (by decide)
    (by decide) (by decide) (by decide) (by decide) (by decide) (by decide)

/-! ## Declarations consumed by the mock generator

A `Decl` embeds one entry of a module's `functions` / `asyncFunctions` /
`properties` / `props` / `onCreate` arrays as produced by the structure
extractor: a possibly-null name together with a possibly-null types record
(`types` is null when type resolution failed).  Inside a `FnTypes` record
both fields may be absent (`parameters` is undefined when the closure had
no substructure list; `returnType` may be null or the empty string). -/

structure Param where
  name : Option Str
  typename : Option Str
deriving DecidableEq, Repr

structure FnTypes where
  parameters : Option (List Param)
  returnType : Option Str
deriving DecidableEq, Repr

structure Decl where
  name : Option Str
  types : Option FnTypes
deriving DecidableEq, Repr

/-- Events carry only a name (no types field). -/
structure EventDecl where
  name : Str
deriving DecidableEq, Repr

/-! ## Mock return statements and function stubs -/

/-- Embeds `getMockReturnStatements` (lines 50–68).  The argument is the
(possibly falsy) TypeScript return-type node; the result is the statement
array, or `none` for the `undefined` the JavaScript function returns when
the switch falls through — which happens exactly on type-reference nodes,
since the switch has no case for `ts.SyntaxKind.TypeReference` and no
default. -/
def getMockReturnStatements : Option TsType → Option (List Stmt)
  | none => some []
  | some t =>
    match t with
    | .anyK => some [.returnStmt .nullLit]
    | .stringK => some [.returnStmt (.stringLit [])]
    | .booleanK => some [.returnStmt .falseLit]
    | .numberK => some [.returnStmt (.numericLit ['0'])]
    | .voidK => some []
    | .arrayType _ => some [.returnStmt .arrayLit]
    | .typeReference _ _ => none

/-- Embeds `wrapWithAsync` (lines 70–72): a `Promise` type-reference node
with the given type as its single type argument. -/
def wrapWithAsync (t : TsType) : TsType :=
  .typeReference promiseChars [t]

/-- Modifier tokens attached to generated function declarations. -/
inductive Modifier where
  | exportK : Modifier
  | asyncK : Modifier
deriving DecidableEq, Repr

structure ParamStub where
  name : Option Str
  type : TsType

structure FunctionStub where
  modifiers : List Modifier
  name : Option Str
  parameters : List ParamStub
  returnType : TsType
  body : List Stmt

/-- Embeds the per-declaration body of `getMockedFunctions` (lines 75–99)
once `fnStructure.types` and `fnStructure.types.parameters` have been read
successfully.  `ts.factory.createBlock` applied to the `undefined` that
`getMockReturnStatements` returns for a type-reference node creates an
empty statement node array, hence the `.getD []`. -/
def mkMockedFunction (name : Option Str) (ps : List Param) (ret : Option Str)
    (async : Bool) : FunctionStub :=
  let returnType := mapSwiftTypeToTsType ret
  { modifiers := Modifier.exportK :: (if async then [Modifier.asyncK] else []),
    name := name,
    parameters := ps.map (fun p => ⟨p.name, mapSwiftTypeToTsType p.typename⟩),
    returnType := if async then wrapWithAsync returnType else returnType,
    body := (getMockReturnStatements (some returnType)).getD [] }

/-- Monadic map over `Option`, used to embed array `map` callbacks whose
body can throw: the result is `none` as soon as one element throws. -/
def optionMapM (f : α → Option β) : List α → Option (List β)
  | [] => some []
  | a :: l =>
    match f a with
    | none => none
    | some b =>
      match optionMapM f l with
      | none => none
      | some bs => some (b :: bs)

/-- Embeds `getMockedFunctions` (lines 74–101).  Reading
`fnStructure.types.returnType` throws when `types` is null, and
`fnStructure.types.parameters.map` throws when `parameters` is undefined;
both are embedded as `none`. -/
def getMockedFunctions (fns : List Decl) (async : Bool) : Option (List FunctionStub) :=
  optionMapM (fun f =>
    match f.types with
    | none => none
    | some t =>
      match t.parameters with
      | none => none
      | some ps => some (mkMockedFunction f.name ps t.returnType async)) fns

/-- C1 counterexample.  A declaration whose return type maps to a
type-reference node (the undeclared name `User`): the generated stub body
is empty — it does not contain a return statement at all, in particular
not `return null;`. -/
theorem C1_reference_counterexample :
    (mapSwiftTypeToTsType (some "User".toList)).isTypeReference = true ∧
    (mkMockedFunction (some "fetchUser".toList) [] (some "User".toList) false).body = [] ∧
    (mkMockedFunction (some "fetchUser".toList) [] (some "User".toList) false).body
      ≠ [Stmt.returnStmt Expr.nullLit] := by
  exact ⟨rfl, rfl, by decide⟩

/-- C1 (amended).  The stub body by mapped return type: `Unknown` (the
`any` keyword) yields exactly one `return null;`; a type-reference return
type yields no return statement (empty body); a string primitive yields
`return '';`, a boolean primitive `return false;`, a numeric primitive
`return 0;`; `Void` yields no return statement; an array type yields
`return [];`. -/
theorem C1_stub_value_table (name : Option Str) (ps : List Param) (ret : Option Str)
    (async : Bool) :
    (mapSwiftTypeToTsType ret = TsType.anyK →
      (mkMockedFunction name ps ret async).body = [Stmt.returnStmt Expr.nullLit]) ∧
    (∀ n args, mapSwiftTypeToTsType ret = TsType.typeReference n args →
      (mkMockedFunction name ps ret async).body = []) ∧
    (mapSwiftTypeToTsType ret = TsType.stringK →
      (mkMockedFunction name ps ret async).body = [Stmt.returnStmt (Expr.stringLit [])]) ∧
    (mapSwiftTypeToTsType ret = TsType.booleanK →
      (mkMockedFunction name ps ret async).body = [Stmt.returnStmt Expr.falseLit]) ∧
    (mapSwiftTypeToTsType ret = TsType.numberK →
      (mkMockedFunction name ps ret async).body = [Stmt.returnStmt (Expr.numericLit ['0'])]) ∧
    (mapSwiftTypeToTsType ret = TsType.voidK →
      (mkMockedFunction name ps ret async).body = []) ∧
    (∀ e, mapSwiftTypeToTsType ret = TsType.arrayType e →
      (mkMockedFunction name ps ret async).body = [Stmt.returnStmt Expr.arrayLit]) := by
  refine ⟨fun h => ?_, fun n args h => ?_, fun h => ?_, fun h => ?_, fun h => ?_,
    fun h => ?_, fun e h => ?_⟩ <;>
    simp [mkMockedFunction, h, getMockReturnStatements]

/-- Witness for C1 (amended): the `unknown` marker maps to the `any`
keyword and the stub body is exactly `return null;`. -/
theorem C1_stub_value_table_witness :
    (mkMockedFunction (some "f".toList) [] (some "unknown".toList) false).body
      = [Stmt.returnStmt Expr.nullLit] :=
  (C1_stub_value_table (some "f".toList) [] (some "unknown".toList) false).1 rfl

/-- C2.  A declaration whose return type maps to `Void` gets a stub body
with no return statement, and each recognized primitive return type gets a
body that is exactly the one return statement from the stub-value table:
empty string for string, `false` for boolean, `0` for numeric. -/
theorem C2_primitive_return_statements (name : Option Str) (ps : List Param)
    (ret : Option Str) (async : Bool) :
    (mapSwiftTypeToTsType ret = TsType.voidK →
      (mkMockedFunction name ps ret async).body = []) ∧
    (mapSwiftTypeToTsType ret = TsType.stringK →
      (mkMockedFunction name ps ret async).body = [Stmt.returnStmt (Expr.stringLit [])]) ∧
    (mapSwiftTypeToTsType ret = TsType.booleanK →
      (mkMockedFunction name ps ret async).body = [Stmt.returnStmt Expr.falseLit]) ∧
    (mapSwiftTypeToTsType ret = TsType.numberK →
      (mkMockedFunction name ps ret async).body = [Stmt.returnStmt (Expr.numericLit ['0'])]) := by
  refine ⟨fun h => ?_, fun h => ?_, fun h => ?_, fun h => ?_⟩ <;>
    simp [mkMockedFunction, h, getMockReturnStatements]

/-- Witness for C2 at Scenario A's declaration `add(a: Int, b: Int) -> Int`:
the numeric return type produces the body `return 0;`. -/
theorem C2_primitive_return_statements_witness :
    (mkMockedFunction (some "add".toList)
      [⟨some "a".toList, some "Int".toList⟩, ⟨some "b".toList, some "Int".toList⟩]
      (some "Int".toList) false).body = [Stmt.returnStmt (Expr.numericLit ['0'])] :=
  (C2_primitive_return_statements (some "add".toList)
    [⟨some "a".toList, some "Int".toList⟩, ⟨some "b".toList, some "Int".toList⟩]
    (some "Int".toList) false).2.2.2 rfl

/-- C7.  An async stub is declared with the `async` modifier and its
declared return type is the mapped return type wrapped in `Promise`, while
its body is exactly the body the synchronous stub for the same declaration
would get: the wrapper never changes which literal is returned. -/
theorem C7_async_promise_wrapper (name : Option Str) (ps : List Param) (ret : Option Str) :
    (mkMockedFunction name ps ret true).modifiers = [Modifier.exportK, Modifier.asyncK] ∧
    (mkMockedFunction name ps ret true).returnType
      = wrapWithAsync (mapSwiftTypeToTsType ret) ∧
    (mkMockedFunction name ps ret true).body = (mkMockedFunction name ps ret false).body :=
  ⟨rfl, rfl, rfl⟩

/-! ## Parsed module definitions

`ParsedModule` embeds the object literal built by `parseModuleDefinition`
in the structure extractor (and consumed by the mock generator): its eight
fields in insertion order are `name`, `functions`, `asyncFunctions`,
`events`, `properties`, `props`, `onCreate`, `view`.  It is an inductive
type because `view` nests another (possibly absent) module definition. -/

inductive ParsedModule where
  | mk (name : Option Str) (functions : List Decl) (asyncFunctions : List Decl)
      (events : List EventDecl) (properties : List Decl) (props : List Decl)
      (onCreate : List Decl) (view : Option ParsedModule) : ParsedModule

def ParsedModule.name : ParsedModule → Option Str
  | .mk n _ _ _ _ _ _ _ => n

def ParsedModule.functions : ParsedModule → List Decl
  | .mk _ f _ _ _ _ _ _ => f

def ParsedModule.asyncFunctions : ParsedModule → List Decl
  | .mk _ _ a _ _ _ _ _ => a

def ParsedModule.events : ParsedModule → List EventDecl
  | .mk _ _ _ e _ _ _ _ => e

def ParsedModule.properties : ParsedModule → List Decl
  | .mk _ _ _ _ p _ _ _ => p

def ParsedModule.props : ParsedModule → List Decl
  | .mk _ _ _ _ _ p _ _ => p

def ParsedModule.onCreate : ParsedModule → List Decl
  | .mk _ _ _ _ _ _ o _ => o

def ParsedModule.view : ParsedModule → Option ParsedModule
  | .mk _ _ _ _ _ _ _ v => v

/-! ## Collecting the types to mock

`getTypesToMock` (lines 103–117) flat-maps `t2?.types` over every
array-valued field of the module object — `Object.values` yields, in key
insertion order: `name` (not an array), the six declaration arrays, and
`view` (not an array).  Event entries have no `types` field, so they
contribute `undefined` to the flat-mapped list; a declaration whose type
resolution failed contributes `null`.  The subsequent
`types.parameters.forEach` then throws a `TypeError` on any such entry
(the optional chaining in the flatMap does not guard the forEach). -/

def declTypesList (m : ParsedModule) : List (Option FnTypes) :=
  m.functions.map Decl.types ++ m.asyncFunctions.map Decl.types
    ++ m.events.map (fun _ => none)
    ++ m.properties.map Decl.types ++ m.props.map Decl.types
    ++ m.onCreate.map Decl.types

/-- Embeds `types.returnType && foundTypes.push(maybeUnwrapSwiftArray(types.returnType))`:
a null, undefined or empty return type pushes nothing. -/
def returnTypePush : Option Str → List Str
  | none => []
  | some s => if s = [] then [] else [maybeUnwrapSwiftArray s]

/-- Embeds the `forEach` of `getMockedTypes`'s collection loop: `none`
means a thrown `TypeError` (reading `parameters` of null/undefined, or
calling `startsWith` on an undefined parameter typename). -/
def collectFoundTypes : List (Option FnTypes) → Option (List Str)
  | [] => some []
  | none :: _ => none
  | some t :: rest =>
    match t.parameters with
    | none => none
    | some ps =>
      match optionMapM (fun p => p.typename.map maybeUnwrapSwiftArray) ps with
      | none => none
      | some paramTys =>
        match collectFoundTypes rest with
        | none => none
        | some more => some (paramTys ++ returnTypePush t.returnType ++ more)

/-- First-occurrence deduplication, as `new Set(list)` iterated in
insertion order. -/
def mkSetGo : List Str → List Str → List Str
  | _, [] => []
  | seen, a :: l => if a ∈ seen then mkSetGo seen l else a :: mkSetGo (a :: seen) l

def mkSet (l : List Str) : List Str := mkSetGo [] l

/-- Embeds `getTypesToMock` (lines 103–117): collect all one-level
unwrapped parameter and return type names, keep those whose mapping is a
type-reference node, and deduplicate; `none` embeds the thrown
`TypeError`. -/
def getTypesToMock (m : ParsedModule) : Option (List Str) :=
  (collectFoundTypes (declTypesList m)).map
    (fun found => mkSet (found.filter (fun ft => (mapSwiftTypeToTsType (some ft)).isTypeReference)))

/-- A generated `export type N = any;` placeholder alias. -/
structure TypeAliasStub where
  name : Str
  target : TsType

/-- Embeds `getMockedTypes` (lines 119–130). -/
def getMockedTypes (types : List Str) : List TypeAliasStub :=
  types.map (fun t => ⟨t, TsType.anyK⟩)

/-- One entry of the per-module output unit. -/
inductive OutputDecl where
  | typeAlias (a : TypeAliasStub) : OutputDecl
  | funcStub (f : FunctionStub) : OutputDecl

def OutputDecl.isFuncStub : OutputDecl → Bool
  | .funcStub _ => true
  | .typeAlias _ => false

/-- Embeds `getMockForModule` (lines 132–138): concatenation of the
placeholder aliases, the synchronous stubs, and the async stubs, in that
order (the three argument expressions are evaluated left to right, so a
throw in any of them yields `none`). -/
def getMockForModule (m : ParsedModule) : Option (List OutputDecl) :=
  match getTypesToMock m with
  | none => none
  | some tys =>
    match getMockedFunctions m.functions false with
    | none => none
    | some fns =>
      match getMockedFunctions m.asyncFunctions true with
      | none => none
      | some afns =>
        some ((getMockedTypes tys).map OutputDecl.typeAlias
          ++ fns.map OutputDecl.funcStub ++ afns.map OutputDecl.funcStub)

/-! ## Helper lemmas on the Option-monadic combinators -/

theorem optionMapM_length {f : α → Option β} :
    ∀ {l : List α} {bs : List β}, optionMapM f l = some bs → bs.length = l.length := by
  intro l
  induction l with
  | nil =>
    intro bs h
    simp only [optionMapM, Option.some.injEq] at h
    subst h
    rfl
  | cons a l ih =>
    intro bs h
    cases hfa : f a with
    | none => simp [optionMapM, hfa] at h
    | some b0 =>
      cases hrest : optionMapM f l with
      | none => simp [optionMapM, hfa, hrest] at h
      | some bs0 =>
        simp only [optionMapM, hfa, hrest, Option.some.injEq] at h
        subst h
        simp [ih hrest]

theorem optionMapM_mem {f : α → Option β} :
    ∀ {l : List α} {bs : List β}, optionMapM f l = some bs →
      ∀ b, b ∈ bs ↔ ∃ a ∈ l, f a = some b := by
  intro l
  induction l with
  | nil =>
    intro bs h b
    simp only [optionMapM, Option.some.injEq] at h
    subst h
    simp
  | cons a l ih =>
    intro bs h b
    cases hfa : f a with
    | none => simp [optionMapM, hfa] at h
    | some b0 =>
      cases hrest : optionMapM f l with
      | none => simp [optionMapM, hfa, hrest] at h
      | some bs0 =>
        simp only [optionMapM, hfa, hrest, Option.some.injEq] at h
        subst h
        simp only [List.mem_cons, ih hrest]
        constructor
        · rintro (rfl | ⟨a1, ha1, hfa1⟩)
          · exact ⟨a, Or.inl rfl, hfa⟩
          · exact ⟨a1, Or.inr ha1, hfa1⟩
        · rintro ⟨a1, (rfl | ha1), hfa1⟩
          · left
            rw [hfa] at hfa1
            exact (Option.some.injEq _ _ ▸ hfa1).symm
          · right
            exact ⟨a1, ha1, hfa1⟩

theorem optionMapM_get {f : α → Option β} :
    ∀ {l : List α} {bs : List β}, optionMapM f l = some bs →
      ∀ i, bs.get? i = (l.get? i).bind f := by
  intro l
  induction l with
  | nil =>
    intro bs h i
    simp only [optionMapM, Option.some.injEq] at h
    subst h
    simp
  | cons a l ih =>
    intro bs h i
    cases hfa : f a with
    | none => simp [optionMapM, hfa] at h
    | some b0 =>
      cases hrest : optionMapM f l with
      | none => simp [optionMapM, hfa, hrest] at h
      | some bs0 =>
        simp only [optionMapM, hfa, hrest, Option.some.injEq] at h
        subst h
        cases i with
        | zero => simp [hfa]
        | succ j => simpa using ih hrest j

theorem mem_mkSetGo : ∀ (l seen : List Str) (b : Str),
    b ∈ mkSetGo seen l ↔ b ∈ l ∧ b ∉ seen := by
  intro l
  induction l with
  | nil => intro seen b; simp [mkSetGo]
  | cons a l ih =>
    intro seen b
    by_cases ha : a ∈ seen
    · simp only [mkSetGo, if_pos ha, ih, List.mem_cons]
      constructor
      · rintro ⟨hb, hbs⟩; exact ⟨Or.inr hb, hbs⟩
      · rintro ⟨(rfl | hb), hbs⟩
        · exact absurd ha hbs
        · exact ⟨hb, hbs⟩
    · simp only [mkSetGo, if_neg ha, List.mem_cons, ih]
      constructor
      · rintro (rfl | ⟨hb, hbs⟩)
        · exact ⟨Or.inl rfl, ha⟩
        · exact ⟨Or.inr hb, fun hc => hbs (Or.inr hc)⟩
      · rintro ⟨(rfl | hb), hbs⟩
        · exact Or.inl rfl
        · by_cases hba : b = a
          · exact Or.inl hba
          · exact Or.inr ⟨hb, fun hor => hor.elim hba hbs⟩

theorem nodup_mkSetGo : ∀ (l seen : List Str), (mkSetGo seen l).Nodup := by
  intro l
  induction l with
  | nil => intro seen; simp [mkSetGo]
  | cons a l ih =>
    intro seen
    by_cases ha : a ∈ seen
    · simpa [mkSetGo, if_pos ha] using ih seen
    · simp only [mkSetGo, if_neg ha, List.nodup_cons]
      refine ⟨fun hmem => ?_, ih _⟩
      rw [mem_mkSetGo] at hmem
      exact hmem.2 (List.mem_cons_self _ _)

theorem mem_mkSet (l : List Str) (b : Str) : b ∈ mkSet l ↔ b ∈ l := by
  simp [mkSet, mem_mkSetGo]

theorem nodup_mkSet (l : List Str) : (mkSet l).Nodup := nodup_mkSetGo l []

/-- A name occurs among the collected (one-level unwrapped) parameter and
return type names of a list of declaration type records. -/
def declaredUnwrappedNames (l : List (Option FnTypes)) (n : Str) : Prop :=
  ∃ ot ∈ l, ∃ t, ot = some t ∧
    ((∃ ps, t.parameters = some ps ∧
        ∃ p ∈ ps, ∃ ty, p.typename = some ty ∧ maybeUnwrapSwiftArray ty = n)
      ∨ (∃ r, t.returnType = some r ∧ r ≠ [] ∧ maybeUnwrapSwiftArray r = n))

theorem mem_returnTypePush (r : Option Str) (n : Str) :
    n ∈ returnTypePush r ↔ ∃ s, r = some s ∧ s ≠ [] ∧ maybeUnwrapSwiftArray s = n := by
  cases r with
  | none => simp [returnTypePush]
  | some s =>
    by_cases hs : s = []
    · simp [returnTypePush, hs]
    · simp only [returnTypePush, if_neg hs, List.mem_singleton, Option.some.injEq]
      constructor
      · rintro rfl; exact ⟨s, rfl, hs, rfl⟩
      · rintro ⟨s1, rfl, _, h⟩; exact h.symm

theorem mem_collectFoundTypes :
    ∀ {l : List (Option FnTypes)} {found : List Str},
      collectFoundTypes l = some found →
      ∀ n, n ∈ found ↔ declaredUnwrappedNames l n := by
  intro l
  induction l with
  | nil =>
    intro found h n
    simp only [collectFoundTypes, Option.some.injEq] at h
    subst h
    simp [declaredUnwrappedNames]
  | cons ot rest ih =>
    intro found h n
    cases ot with
    | none => simp [collectFoundTypes] at h
    | some t =>
      cases hps : t.parameters with
      | none => simp [collectFoundTypes, hps] at h
      | some ps =>
      cases hparam : optionMapM (fun p => p.typename.map maybeUnwrapSwiftArray) ps with
      | none => simp [collectFoundTypes, hps, hparam] at h
      | some paramTys =>
      cases hmore : collectFoundTypes rest with
      | none => simp [collectFoundTypes, hps, hparam, hmore] at h
      | some more =>
      simp only [collectFoundTypes, hps, hparam, hmore, Option.some.injEq] at h
      subst h
      simp only [List.mem_append, optionMapM_mem hparam, mem_returnTypePush, ih hmore]
      constructor
      · rintro ((⟨p, hp, hf⟩ | ⟨s, hr, hne, hun⟩) | hrest)
        · refine ⟨some t, List.mem_cons_self _ _, t, rfl, Or.inl ⟨ps, hps, p, hp, ?_⟩⟩
          rw [Option.map_eq_some'] at hf
          obtain ⟨ty, hty, hun⟩ := hf
          exact ⟨ty, hty, hun⟩
        · exact ⟨some t, List.mem_cons_self _ _, t, rfl, Or.inr ⟨s, hr, hne, hun⟩⟩
        · obtain ⟨ot1, hot1, hbody⟩ := hrest
          exact ⟨ot1, List.mem_cons_of_mem _ hot1, hbody⟩
      · rintro ⟨ot1, hot1, t1, rfl, hbody⟩
        rcases List.mem_cons.mp hot1 with heq | hot1rest
        · have ht1 : t1 = t := by
            simpa using heq
          subst ht1
          rcases hbody with ⟨ps1, hps1, p, hp, ty, hty, hun⟩ | hret
          · rw [hps] at hps1
            have heqps : ps = ps1 := by simpa using hps1
            subst heqps
            refine Or.inl (Or.inl ⟨p, hp, ?_⟩)
            rw [Option.map_eq_some']
            exact ⟨ty, hty, hun⟩
          · exact Or.inl (Or.inr hret)
        · exact Or.inr ⟨some t1, hot1rest, t1, rfl, hbody⟩

theorem map_name_getMockedTypes (l : List Str) :
    (getMockedTypes l).map TypeAliasStub.name = l := by
  induction l with
  | nil => rfl
  | cons a l ih =>
    simp only [getMockedTypes, List.map_cons] at ih ⊢
    rw [ih]

theorem getMockedFunctions_length {fns : List Decl} {async : Bool} {out : List FunctionStub}
    (h : getMockedFunctions fns async = some out) : out.length = fns.length := by
  unfold getMockedFunctions at h
  exact optionMapM_length h

/-- C6.  When `getTypesToMock` returns (no entry made it throw), the
returned set contains exactly the one-level-unwrapped parameter and return
type names, drawn from every declaration of the module, whose mapping is a
type-reference node; it has set semantics (no duplicates), and the
placeholder alias output aliases each collected name, exactly once, to the
fully-permissive `any` type. -/
theorem C6_types_to_mock_reference_set (m : ParsedModule) (s : List Str)
    (h : getTypesToMock m = some s) :
    (∀ n, n ∈ s ↔ declaredUnwrappedNames (declTypesList m) n ∧
        (mapSwiftTypeToTsType (some n)).isTypeReference = true) ∧
    s.Nodup ∧
    (getMockedTypes s).map TypeAliasStub.name = s ∧
    (∀ a ∈ getMockedTypes s, a.target = TsType.anyK) := by
  cases hc : collectFoundTypes (declTypesList m) with
  | none => simp [getTypesToMock, hc] at h
  | some found =>
    simp only [getTypesToMock, hc, Option.map_some', Option.some.injEq] at h
    subst h
    refine ⟨?_, nodup_mkSet _, ?_, ?_⟩
    · intro n
      rw [mem_mkSet, List.mem_filter, mem_collectFoundTypes hc]
    · exact map_name_getMockedTypes _
    · intro a ha
      simp only [getMockedTypes, List.mem_map] at ha
      obtain ⟨t, _, rfl⟩ := ha
      rfl

/-- Scenario D module: one function referencing the undeclared type `User`. -/
def C6Module : ParsedModule :=
  .mk (some "M".toList)
    [⟨some "fetchUser".toList, some ⟨some [], some "User".toList⟩⟩]
    [] [] [] [] [] none

/-- Witness for C6 at Scenario D: `User` appears in the collected set. -/
theorem C6_types_to_mock_reference_set_witness :
    "User".toList ∈ ["User".toList] ↔
      declaredUnwrappedNames (declTypesList C6Module) "User".toList ∧
      (mapSwiftTypeToTsType (some "User".toList)).isTypeReference = true :=
  (C6_types_to_mock_reference_set C6Module ["User".toList] rfl).1 "User".toList

theorem filterFuncStub_map_typeAlias (l : List TypeAliasStub) :
    (l.map OutputDecl.typeAlias).filter OutputDecl.isFuncStub = [] := by
  induction l with
  | nil => rfl
  | cons a l ih => simp [OutputDecl.isFuncStub, ih]

theorem filterFuncStub_map_funcStub (l : List FunctionStub) :
    (l.map OutputDecl.funcStub).filter OutputDecl.isFuncStub = l.map OutputDecl.funcStub := by
  induction l with
  | nil => rfl
  | cons a l ih => simp [OutputDecl.isFuncStub, ih]

/-- C8.  A successful per-module output unit is exactly: all placeholder
type aliases, then one stub per synchronous function, then one stub per
async function, in that fixed order; the number of function stubs equals
the number of functions plus async functions, so no stub is generated for
properties, events, props or lifecycle hooks even when those are present
in the module definition. -/
theorem C8_module_output_order (m : ParsedModule) (out : List OutputDecl)
    (h : getMockForModule m = some out) :
    ∃ tys fns afns,
      getTypesToMock m = some tys ∧
      getMockedFunctions m.functions false = some fns ∧
      getMockedFunctions m.asyncFunctions true = some afns ∧
      out = (getMockedTypes tys).map OutputDecl.typeAlias
        ++ fns.map OutputDecl.funcStub ++ afns.map OutputDecl.funcStub ∧
      fns.length = m.functions.length ∧
      afns.length = m.asyncFunctions.length ∧
      (out.filter OutputDecl.isFuncStub).length
        = m.functions.length + m.asyncFunctions.length := by
  cases h1 : getTypesToMock m with
  | none => simp [getMockForModule, h1] at h
  | some tys =>
  cases h2 : getMockedFunctions m.functions false with
  | none => simp [getMockForModule, h1, h2] at h
  | some fns =>
  cases h3 : getMockedFunctions m.asyncFunctions true with
  | none => simp [getMockForModule, h1, h2, h3] at h
  | some afns =>
  simp only [getMockForModule, h1, h2, h3, Option.some.injEq] at h
  subst h
  have hfl : fns.length = m.functions.length := getMockedFunctions_length h2
  have hafl : afns.length = m.asyncFunctions.length := getMockedFunctions_length h3
  refine ⟨tys, fns, afns, rfl, rfl, rfl, rfl, hfl, hafl, ?_⟩
  rw [List.filter_append, List.filter_append, filterFuncStub_map_typeAlias,
    filterFuncStub_map_funcStub, filterFuncStub_map_funcStub]
  simp [hfl, hafl]

/-- A module exercising every declaration category: one function (Scenario
A), one async function (Scenario B), a property, a prop and a lifecycle
hook (none of which get stubs), and no events. -/
def C8Module : ParsedModule :=
  .mk (some "M".toList)
    [⟨some "add".toList, some ⟨some [⟨some "a".toList, some "Int".toList⟩,
        ⟨some "b".toList, some "Int".toList⟩], some "Int".toList⟩⟩]
    [⟨some "fetchName".toList, some ⟨some [], some "String".toList⟩⟩]
    []
    [⟨some "prop1".toList, some ⟨some [], some "Foo".toList⟩⟩]
    [⟨some "p".toList, some ⟨some [], none⟩⟩]
    [⟨none, some ⟨some [], some "unknown".toList⟩⟩]
    none

/-- The output unit generated for `C8Module`. -/
def C8Out : List OutputDecl :=
  [OutputDecl.typeAlias ⟨"Foo".toList, TsType.anyK⟩,
    OutputDecl.funcStub ⟨[Modifier.exportK], some "add".toList,
      [⟨some "a".toList, TsType.numberK⟩, ⟨some "b".toList, TsType.numberK⟩],
      TsType.numberK, [Stmt.returnStmt (Expr.numericLit ['0'])]⟩,
    OutputDecl.funcStub ⟨[Modifier.exportK, Modifier.asyncK], some "fetchName".toList,
      [], TsType.typeReference promiseChars [TsType.stringK],
      [Stmt.returnStmt (Expr.stringLit [])]⟩]

/-- Witness for C8: the concrete module's output is alias-then-stubs, and
exactly its two functions got stubs despite the property, prop and
lifecycle hook being present. -/
theorem C8_module_output_order_witness :
    getMockForModule C8Module = some C8Out ∧
    (C8Out.filter OutputDecl.isFuncStub).length
      = C8Module.functions.length + C8Module.asyncFunctions.length := by
  refine ⟨rfl, ?_⟩
  obtain ⟨tys, fns, afns, h1, h2, h3, h4, h5, h6, h7⟩ :=
    C8_module_output_order C8Module C8Out rfl
  exact h7

/-- A module whose only non-empty declaration category is `Events`. -/
def C10EventsModule : ParsedModule :=
  .mk (some "M".toList) [] [] [⟨"onChange".toList⟩] [] [] [] none

/-- A module containing one function whose type resolution failed. -/
def C10NullTypesModule : ParsedModule :=
  .mk (some "M".toList) [⟨some "f".toList, none⟩] [] [] [] [] [] none

/-- C10 evaluation.  `getTypesToMock` is not total at the public
interface: on a module with a non-empty events list (event entries carry
no types field) or with a declaration whose types field is null, the
`types.parameters.forEach` call throws a `TypeError` (embedded as `none`),
and the whole per-module generation fails with it. -/
theorem C10_get_types_to_mock_crashes :
    getTypesToMock C10EventsModule = none ∧
    getTypesToMock C10NullTypesModule = none ∧
    getMockForModule C10EventsModule = none :=
  ⟨rfl, rfl, rfl⟩

/-! ## The structure extractor

`SKNode` embeds one node of the sourcekitten declaration tree: the
string-keyed attributes actually consumed by the extractor (`key.name`,
`key.typename`, `key.kind`, `key.offset`, `key.length`,
`key.substructure`), each optional except the byte span. -/

inductive SKNode where
  | mk (name : Option Str) (typename : Option Str) (kind : Option Str)
      (offset : Nat) (length : Nat) (substructure : Option (List SKNode)) : SKNode

def SKNode.name : SKNode → Option Str
  | .mk n _ _ _ _ _ => n

def SKNode.typename : SKNode → Option Str
  | .mk _ t _ _ _ _ => t

def SKNode.kind : SKNode → Option Str
  | .mk _ _ k _ _ _ => k

def SKNode.offset : SKNode → Nat
  | .mk _ _ _ o _ _ => o

def SKNode.length : SKNode → Nat
  | .mk _ _ _ _ l _ => l

def SKNode.substructure : SKNode → Option (List SKNode)
  | .mk _ _ _ _ _ s => s

/-- A discovered source file: path and raw text content. -/
structure SrcFile where
  path : Str
  content : Str

/-- External-process oracles, per the spec's external-interface boundary:
`structureOf` is the per-file structure command (non-zero exit or
unparsable JSON output is an error); `resolve` is the per-offset
cursor-info lookup together with its in-file XML post-processing, whose
observable result is an optional signature record (covering tool failure,
logged and swallowed, and the soft fallback that yields a payload without
`parameters`/`returnType` fields); `contentOf` is `fs.readFileSync`. -/
structure Env where
  structureOf : Str → Except Str SKNode
  resolve : Str → Nat → Option FnTypes
  contentOf : Str → Str

/-- Embeds `getIdentifierFromOffsetObject` (lines 49–54):
`content.substring(offset, offset + length).replaceAll(quote, empty)`. -/
def getIdentifierFromOffsetObject (n : SKNode) (file : SrcFile) : Str :=
  ((file.content.drop n.offset).take n.length).filter (fun c => decide (c ≠ '"'))

/-- Embeds `hasSubstructure` (lines 134–136), including the optional chain
on an undefined argument. -/
def hasSubstructure : Option SKNode → Bool
  | none => false
  | some n =>
    match n.substructure with
    | none => false
    | some l => !l.isEmpty

/-- Embeds `parseClosureTypes` (lines 138–152): find the closure child,
take its parameter declarations (name and typename), return type is the
`unknown` marker; no closure child yields null. -/
def parseClosureTypes (n : SKNode) : Option FnTypes :=
  match (n.substructure.getD []).find? (fun s => decide (s.kind = some closureKindChars)) with
  | none => none
  | some closure =>
    some ⟨closure.substructure.map (fun l =>
        (l.filter (fun s => decide (s.kind = some paramKindChars))).map
          (fun p => ⟨p.name, p.typename⟩)),
      some unknownChars⟩

/-- Embeds `getTypeFromOffsetObject` (lines 101–132): null offset object
yields null; otherwise the external cursor-info request runs at the
node's offset. -/
def getTypeFromOffsetObject (env : Env) (offsetObject : Option SKNode) (file : SrcFile) :
    Option FnTypes :=
  match offsetObject with
  | none => none
  | some n => env.resolve file.path n.offset

/-- Embeds `findNamedDefinitionsOfType` (lines 155–168).  A matching node
without a substructure array, or with an empty one, makes the identifier
read throw (embedded as `none`); a missing second child resolves types to
null via `getTypeFromOffsetObject(undefined)`. -/
def findNamedDefinitionsOfType (env : Env) (tyname : Str) (md : List SKNode)
    (file : SrcFile) : Option (List Decl) :=
  optionMapM (fun d =>
    match d.substructure with
    | none => none
    | some [] => none
    | some (p0 :: rest) =>
      let types :=
        match rest.head? with
        | none => getTypeFromOffsetObject env none file
        | some n1 =>
          if hasSubstructure (some n1) then parseClosureTypes n1
          else getTypeFromOffsetObject env (some n1) file
      some ⟨some (getIdentifierFromOffsetObject p0 file), types⟩)
    (md.filter (fun n => decide (n.name = some tyname)))

/-- Embeds `findUnnamedDefinitionsOfType` (lines 171–183): same type
resolution on the first child, name always null. -/
def findUnnamedDefinitionsOfType (env : Env) (tyname : Str) (md : List SKNode)
    (file : SrcFile) : Option (List Decl) :=
  optionMapM (fun d =>
    match d.substructure with
    | none => none
    | some ps =>
      let types :=
        match ps.head? with
        | none => getTypeFromOffsetObject env none file
        | some n0 =>
          if hasSubstructure (some n0) then parseClosureTypes n0
          else getTypeFromOffsetObject env (some n0) file
      some ⟨none, types⟩)
    (md.filter (fun n => decide (n.name = some tyname)))

/-- Embeds `findGroupedDefinitionsOfType` (lines 186–192): each child of a
matching node is read as a bare identifier. -/
def findGroupedDefinitionsOfType (tyname : Str) (md : List SKNode) (file : SrcFile) :
    Option (List EventDecl) :=
  match optionMapM (fun d =>
      d.substructure.map (fun ps =>
        ps.map (fun el => EventDecl.mk (getIdentifierFromOffsetObject el file))))
      (md.filter (fun n => decide (n.name = some tyname))) with
  | none => none
  | some ls => some ls.flatten

/-- Embeds the index-aware filter of `omitViewFromTypes` (line 218):
`parameters?.filter((t, idx) => idx !== 0 && t.name !== 'view')`. -/
def dropViewParams (ps : List Param) : List Param :=
  (ps.enum.filter (fun ip =>
    decide (ip.1 ≠ 0) && decide (ip.2.name ≠ some viewParamChars))).map Prod.snd

/-- Embeds `omitViewFromTypes` (lines 213–221): a null types record makes
the `d.types.parameters` read throw (`none`); otherwise the parameters
list, when present, is rewritten through `dropViewParams`. -/
def omitViewFromTypes (ds : List Decl) : Option (List Decl) :=
  optionMapM (fun d =>
    match d.types with
    | none => none
    | some t => some ⟨d.name, some ⟨t.parameters.map dropViewParams, t.returnType⟩⟩) ds

def ParsedModule.withoutView : ParsedModule → ParsedModule
  | .mk n f a e pr ps oc _ => .mk n f a e pr ps oc none

/-- Embeds the fixed structural path into a `View` declaration (lines
200–203): `substructure?.[1]?.substructure?.[0]?.substructure?.[0]?.substructure`. -/
def viewNodesOf (vd : SKNode) : Option (List SKNode) :=
  (((((vd.substructure.bind (fun l => l.get? 1)).bind
    SKNode.substructure).bind (fun l => l.get? 0)).bind
    SKNode.substructure).bind (fun l => l.get? 0)).bind
    SKNode.substructure

/-- Embeds `findAndParseView` (lines 194–211) with the recursive call on
the nested module definition abstracted into `viewRec` (the function is
mutually recursive with `parseModuleDefinition`; the recursion is tied
below with fuel).  No `View` child, or a path that does not resolve,
yields null after a warning; otherwise the nested parse runs and its own
`view` field is dropped. -/
def findAndParseViewWith (viewRec : List SKNode → Option (Option ParsedModule))
    (md : List SKNode) : Option (Option ParsedModule) :=
  match md.find? (fun n => decide (n.name = some viewChars)) with
  | none => some none
  | some vd =>
    match viewNodesOf vd with
    | none => some none
    | some nodes => viewRec nodes

/-- Embeds `parseModuleDefinition` (lines 223–235) with the nested view
parse abstracted into `viewRec`; the eight fields are computed in object
literal order, and the first thrown `TypeError` aborts the whole parse. -/
def parseModuleDefinitionWith (env : Env) (file : SrcFile)
    (viewRec : List SKNode → Option (Option ParsedModule)) (md : List SKNode) :
    Option ParsedModule :=
  match findNamedDefinitionsOfType env nameDeclChars md file with
  | none => none
  | some nameDecls =>
  match findNamedDefinitionsOfType env functionChars md file with
  | none => none
  | some fns =>
  match findNamedDefinitionsOfType env asyncFunctionChars md file with
  | none => none
  | some afns =>
  match findGroupedDefinitionsOfType eventsChars md file with
  | none => none
  | some evs =>
  match findNamedDefinitionsOfType env propertyChars md file with
  | none => none
  | some prps =>
  match findNamedDefinitionsOfType env propChars md file with
  | none => none
  | some props0 =>
  match omitViewFromTypes props0 with
  | none => none
  | some props =>
  match findUnnamedDefinitionsOfType env onCreateChars md file with
  | none => none
  | some onCr =>
  match findAndParseViewWith viewRec md with
  | none => none
  | some vw =>
  some (.mk (nameDecls.head?.bind Decl.name) fns afns evs prps props onCr vw)

/-- The tied recursion of `parseModuleDefinition`: fuel bounds the view
nesting depth (the JavaScript recursion always terminates on finite
trees; theorems quantify over all fuel values). -/
def parseModuleDefinition (env : Env) (file : SrcFile) : Nat → List SKNode → Option ParsedModule
  | 0, md => parseModuleDefinitionWith env file (fun _ => none) md
  | fuel + 1, md =>
    parseModuleDefinitionWith env file
      (fun nodes => (parseModuleDefinition env file fuel nodes).map
        (fun pm => some pm.withoutView)) md

/-- `findAndParseView` with its actual recursive call into
`parseModuleDefinition`. -/
def findAndParseView (env : Env) (file : SrcFile) (fuel : Nat) (md : List SKNode) :
    Option (Option ParsedModule) :=
  findAndParseViewWith
    (fun nodes => (parseModuleDefinition env file fuel nodes).map
      (fun pm => some pm.withoutView)) md

mutual

/-- Embeds `findModuleDefinitionInStructure` (lines 24–46): depth-first
search for the node whose `key.typename` is the module-definition marker;
a matched node returns its (possibly absent, after a warning)
substructure; otherwise the children are searched in order. -/
def findModuleDefinitionInStructure : Nat → Option SKNode → Option (List SKNode)
  | _, none => none
  | fuel, some n =>
    if n.typename = some moduleDefChars then n.substructure
    else
      match n.substructure with
      | some (c :: cs) =>
        match fuel with
        | 0 => none
        | fuel' + 1 => findInChildren fuel' (c :: cs)
      | _ => none
termination_by fuel _ => (fuel, 0)

/-- The `for (const child of substructure)` loop of
`findModuleDefinitionInStructure`: first truthy result wins. -/
def findInChildren : Nat → List SKNode → Option (List SKNode)
  | _, [] => none
  | fuel, c :: cs =>
    match findModuleDefinitionInStructure fuel (some c) with
    | some r => some r
    | none => findInChildren fuel cs
termination_by fuel l => (fuel, l.length + 1)

end

/-- Run events observable on the per-file loop: an error report on the
error channel, or one module definition printed for a file. -/
inductive RunEvent where
  | errorLogged (path : Str) (e : Str) : RunEvent
  | moduleOutput (path : Str) (m : ParsedModule) : RunEvent

/-- Embeds `getStructureFromFile` (lines 13–22): the catch block logs and
returns undefined. -/
def getStructureFromFile (env : Env) (file : SrcFile) : Option SKNode :=
  match env.structureOf file.path with
  | .ok tree => some tree
  | .error _ => none

/-- One iteration of the `findModuleDefinitionsInFiles` loop for one file:
a failed structure command logs an error and yields no definition (the
subsequent search runs on undefined and finds nothing); a missing module
definition yields nothing; a parse throw aborts the run (`none`). -/
def processOneFile (env : Env) (fuel : Nat) (p : Str) : Option (List RunEvent) :=
  let file : SrcFile := ⟨p, env.contentOf p⟩
  match env.structureOf p with
  | .error e => some [RunEvent.errorLogged p e]
  | .ok tree =>
    match findModuleDefinitionInStructure fuel (some tree) with
    | none => some []
    | some md =>
      (parseModuleDefinition env file fuel md).map (fun pm => [RunEvent.moduleOutput p pm])

/-- Embeds `findModuleDefinitionsInFiles` (lines 237–245): sequential loop
over the discovered files. -/
def findModuleDefinitionsInFiles (env : Env) (fuel : Nat) : List Str → Option (List RunEvent)
  | [] => some []
  | p :: rest =>
    match processOneFile env fuel p with
    | none => none
    | some evs =>
      match findModuleDefinitionsInFiles env fuel rest with
      | none => none
      | some more => some (evs ++ more)

theorem mem_dropViewParams {ps : List Param} {pa : Param} (h : pa ∈ dropViewParams ps) :
    pa.name ≠ some viewParamChars := by
  simp only [dropViewParams, List.mem_map, List.mem_filter] at h
  obtain ⟨ip, ⟨_, hpred⟩, rfl⟩ := h
  simp only [Bool.and_eq_true, decide_eq_true_eq] at hpred
  exact hpred.2

theorem dropViewParams_go :
    ∀ (ps : List Param) (n : Nat), n ≠ 0 →
      ((List.enumFrom n ps).filter (fun ip =>
          decide (ip.1 ≠ 0) && decide (ip.2.name ≠ some viewParamChars))).map Prod.snd
        = ps.filter (fun pa => decide (pa.name ≠ some viewParamChars)) := by
  intro ps
  induction ps with
  | nil => intro n _; rfl
  | cons p ps ih =>
    intro n hn
    have hstep : List.enumFrom n (p :: ps) = (n, p) :: List.enumFrom (n + 1) ps := rfl
    rw [hstep, List.filter_cons, List.filter_cons]
    by_cases hv : p.name = some viewParamChars
    · have c1 : (decide ((n, p).1 ≠ 0) && decide ((n, p).2.name ≠ some viewParamChars))
          = false := by simp [hv]
      have c2 : decide (p.name ≠ some viewParamChars) = false := by simp [hv]
      rw [c1, c2]
      simp only [Bool.false_eq_true, if_false]
      exact ih (n + 1) (Nat.succ_ne_zero n)
    · have c1 : (decide ((n, p).1 ≠ 0) && decide ((n, p).2.name ≠ some viewParamChars))
          = true := by simp [hv, hn]
      have c2 : decide (p.name ≠ some viewParamChars) = true := by simp [hv]
      rw [c1, c2]
      simp only [if_true, List.map_cons]
      rw [ih (n + 1) (Nat.succ_ne_zero n)]

theorem dropViewParams_eq_tail_filter (ps : List Param) :
    dropViewParams ps = ps.tail.filter (fun pa => decide (pa.name ≠ some viewParamChars)) := by
  cases ps with
  | nil => rfl
  | cons p ps =>
    unfold dropViewParams
    have henum : List.enum (p :: ps) = (0, p) :: List.enumFrom 1 ps := rfl
    rw [henum, List.filter_cons]
    have c1 : (decide (((0 : Nat), p).1 ≠ 0) && decide (((0 : Nat), p).2.name ≠ some viewParamChars))
        = false := by simp
    rw [c1]
    simp only [Bool.false_eq_true, if_false]
    exact dropViewParams_go ps 1 one_ne_zero

theorem withoutView_view (pm : ParsedModule) : pm.withoutView.view = none := by
  cases pm
  rfl

theorem withoutView_props (pm : ParsedModule) : pm.withoutView.props = pm.props := by
  cases pm
  rfl

theorem parseModuleDefinitionWith_props (env : Env) (file : SrcFile)
    (viewRec : List SKNode → Option (Option ParsedModule)) (md : List SKNode)
    (pm : ParsedModule) (h : parseModuleDefinitionWith env file viewRec md = some pm) :
    ∃ props0, findNamedDefinitionsOfType env propChars md file = some props0 ∧
      omitViewFromTypes props0 = some pm.props := by
  cases h1 : findNamedDefinitionsOfType env nameDeclChars md file with
  | none => simp [parseModuleDefinitionWith, h1] at h
  | some nameDecls =>
  cases h2 : findNamedDefinitionsOfType env functionChars md file with
  | none => simp [parseModuleDefinitionWith, h1, h2] at h
  | some fns =>
  cases h3 : findNamedDefinitionsOfType env asyncFunctionChars md file with
  | none => simp [parseModuleDefinitionWith, h1, h2, h3] at h
  | some afns =>
  cases h4 : findGroupedDefinitionsOfType eventsChars md file with
  | none => simp [parseModuleDefinitionWith, h1, h2, h3, h4] at h
  | some evs =>
  cases h5 : findNamedDefinitionsOfType env propertyChars md file with
  | none => simp [parseModuleDefinitionWith, h1, h2, h3, h4, h5] at h
  | some prps =>
  cases h6 : findNamedDefinitionsOfType env propChars md file with
  | none => simp [parseModuleDefinitionWith, h1, h2, h3, h4, h5, h6] at h
  | some props0 =>
  cases h7 : omitViewFromTypes props0 with
  | none => simp [parseModuleDefinitionWith, h1, h2, h3, h4, h5, h6, h7] at h
  | some props =>
  cases h8 : findUnnamedDefinitionsOfType env onCreateChars md file with
  | none => simp [parseModuleDefinitionWith, h1, h2, h3, h4, h5, h6, h7, h8] at h
  | some onCr =>
  cases h9 : findAndParseViewWith viewRec md with
  | none => simp [parseModuleDefinitionWith, h1, h2, h3, h4, h5, h6, h7, h8, h9] at h
  | some vw =>
  simp only [parseModuleDefinitionWith, h1, h2, h3, h4, h5, h6, h7, h8, h9,
    Option.some.injEq] at h
  subst h
  exact ⟨props0, rfl, h7⟩

theorem parseModuleDefinition_props (env : Env) (file : SrcFile) (fuel : Nat)
    (md : List SKNode) (pm : ParsedModule)
    (h : parseModuleDefinition env file fuel md = some pm) :
    ∃ props0, findNamedDefinitionsOfType env propChars md file = some props0 ∧
      omitViewFromTypes props0 = some pm.props := by
  cases fuel with
  | zero => exact parseModuleDefinitionWith_props _ _ _ _ _ h
  | succ f => exact parseModuleDefinitionWith_props _ _ _ _ _ h

/-- C5.  Whenever view resolution returns a definition, that definition's
own view field is absent (nesting is flattened to one level), its props
arise from the raw extracted props through `omitViewFromTypes` — each
prop's parameter list is the raw list with the first positional parameter
dropped and every parameter named `view` removed — and consequently no
prop parameter named `view` survives. -/
theorem C5_resolved_view_flattened (env : Env) (file : SrcFile) (fuel : Nat)
    (md : List SKNode) (d : ParsedModule)
    (h : findAndParseView env file fuel md = some (some d)) :
    d.view = none ∧
    (∃ raw, omitViewFromTypes raw = some d.props ∧
      ∀ i p pr, d.props.get? i = some p → raw.get? i = some pr →
        ∃ tr, pr.types = some tr ∧
          p.types = some ⟨tr.parameters.map (fun ps =>
              ps.tail.filter (fun pa => decide (pa.name ≠ some viewParamChars))),
            tr.returnType⟩) ∧
    (∀ p ∈ d.props, ∀ t, p.types = some t → ∀ ps, t.parameters = some ps →
      ∀ pa ∈ ps, pa.name ≠ some viewParamChars) := by
  cases hfind : (md.find? (fun n => decide (n.name = some viewChars))) with
  | none => simp [findAndParseView, findAndParseViewWith, hfind] at h
  | some vd =>
  cases hnodes : viewNodesOf vd with
  | none => simp [findAndParseView, findAndParseViewWith, hfind, hnodes] at h
  | some nodes =>
  simp only [findAndParseView, findAndParseViewWith, hfind, hnodes] at h
  cases hpm : parseModuleDefinition env file fuel nodes with
  | none => rw [hpm] at h; simp at h
  | some pm =>
  rw [hpm] at h
  simp only [Option.map_some', Option.some.injEq] at h
  subst h
  obtain ⟨props0, hfindp, homit⟩ := parseModuleDefinition_props env file fuel nodes pm hpm
  have hprops : pm.withoutView.props = pm.props := withoutView_props pm
  have hdrop : dropViewParams = fun ps =>
      ps.tail.filter (fun pa => decide (pa.name ≠ some viewParamChars)) :=
    funext dropViewParams_eq_tail_filter
  unfold omitViewFromTypes at homit
  refine ⟨withoutView_view pm, ⟨props0, ?_, ?_⟩, ?_⟩
  · rw [hprops]
    exact homit
  · intro i p pr hp hpr
    rw [hprops] at hp
    have hget := optionMapM_get homit i
    rw [hp, hpr] at hget
    have hget2 : some p = (match pr.types with
        | none => none
        | some t => some (⟨pr.name, some ⟨t.parameters.map dropViewParams, t.returnType⟩⟩
            : Decl)) := hget
    cases htr : pr.types with
    | none =>
      rw [htr] at hget2
      simp at hget2
    | some tr =>
      rw [htr] at hget2
      simp only [Option.some.injEq] at hget2
      refine ⟨tr, rfl, ?_⟩
      rw [hget2, hdrop]
  · intro p hp t htypes ps hparams pa hpa
    rw [hprops] at hp
    obtain ⟨pr, hprmem, hfpr⟩ := (optionMapM_mem homit p).mp hp
    have hfpr2 : (match pr.types with
        | none => none
        | some t => some (⟨pr.name, some ⟨t.parameters.map dropViewParams, t.returnType⟩⟩
            : Decl)) = some p := hfpr
    cases htr : pr.types with
    | none =>
      rw [htr] at hfpr2
      simp at hfpr2
    | some tr =>
      rw [htr] at hfpr2
      simp only [Option.some.injEq] at hfpr2
      subst hfpr2
      have ht : (⟨tr.parameters.map dropViewParams, tr.returnType⟩ : FnTypes) = t := by
        injection htypes
      have hparams2 : tr.parameters.map dropViewParams = some ps := by
        rw [← ht] at hparams
        exact hparams
      rw [Option.map_eq_some'] at hparams2
      obtain ⟨ps0, _, hps0⟩ := hparams2
      rw [← hps0] at hpa
      exact mem_dropViewParams hpa

/-- Witness source file for C5: the content holds the quoted prop name. -/
def C5File : SrcFile := ⟨"a.swift".toList, '"' :: ("onPress".toList ++ ['"'])⟩

/-- Witness environment for C5 (the closure path needs no external calls). -/
def C5Env : Env := ⟨fun _ => Except.error [], fun _ _ => none, fun _ => []⟩

def C5IdentNode : SKNode := .mk none none none 0 9 none

def C5ViewParamNode : SKNode :=
  .mk (some "view".toList) (some "ViewRef".toList) (some paramKindChars) 0 0 none

def C5HandlerParamNode : SKNode :=
  .mk (some "handler".toList) (some "Handler".toList) (some paramKindChars) 0 0 none

def C5ClosureChild : SKNode :=
  .mk none none (some closureKindChars) 0 0 (some [C5ViewParamNode, C5HandlerParamNode])

def C5ClosNode : SKNode := .mk none none none 0 0 (some [C5ClosureChild])

def C5PropNode : SKNode := .mk (some propChars) none none 0 0 (some [C5IdentNode, C5ClosNode])

def C5InnerNodes : List SKNode := [C5PropNode]

def C5N3 : SKNode := .mk none none none 0 0 (some C5InnerNodes)

def C5N2 : SKNode := .mk none none none 0 0 (some [C5N3])

def C5N1 : SKNode := .mk none none none 0 0 (some [C5N2])

def C5DummyNode : SKNode := .mk none none none 0 0 none

def C5ViewNode : SKNode := .mk (some viewChars) none none 0 0 (some [C5DummyNode, C5N1])

def C5Md : List SKNode := [C5ViewNode]

/-- The definition resolved for the view of `C5Md`: Scenario C's prop
`onPress(view: ViewRef, handler: Handler)` loses its leading view
parameter, and the nested view field is absent. -/
def C5Parsed : ParsedModule :=
  .mk none [] [] [] []
    [⟨some "onPress".toList,
      some ⟨some [⟨some "handler".toList, some "Handler".toList⟩], some unknownChars⟩⟩]
    [] none

/-- Witness for C5 at the concrete view definition. -/
theorem C5_resolved_view_flattened_witness :
    findAndParseView C5Env C5File 0 C5Md = some (some C5Parsed) ∧
    C5Parsed.view = none :=
  ⟨rfl, (C5_resolved_view_flattened C5Env C5File 0 C5Md C5Parsed rfl).1⟩

theorem findModuleDefinitionsInFiles_append (env : Env) (fuel : Nat) :
    ∀ (l₁ l₂ : List Str),
      findModuleDefinitionsInFiles env fuel (l₁ ++ l₂)
        = (findModuleDefinitionsInFiles env fuel l₁).bind
            (fun a => (findModuleDefinitionsInFiles env fuel l₂).map (fun b => a ++ b)) := by
  intro l₁
  induction l₁ with
  | nil =>
    intro l₂
    simp only [List.nil_append]
    cases hr : findModuleDefinitionsInFiles env fuel l₂ with
    | none => rfl
    | some b =>
      show some b = Option.map (fun b => [] ++ b) (some b)
      simp
  | cons p rest ih =>
    intro l₂
    show (match processOneFile env fuel p with
      | none => none
      | some evs =>
        match findModuleDefinitionsInFiles env fuel (rest ++ l₂) with
        | none => none
        | some more => some (evs ++ more)) = _
    cases hp : processOneFile env fuel p with
    | none =>
      show (none : Option (List RunEvent))
        = (match processOneFile env fuel p with
            | none => none
            | some evs =>
              match findModuleDefinitionsInFiles env fuel rest with
              | none => none
              | some more => some (evs ++ more)).bind _
      rw [hp]
      rfl
    | some evs =>
      rw [ih l₂]
      show (match (findModuleDefinitionsInFiles env fuel rest).bind
          (fun a => (findModuleDefinitionsInFiles env fuel l₂).map (fun b => a ++ b)) with
        | none => none
        | some more => some (evs ++ more))
        = (match processOneFile env fuel p with
            | none => none
            | some evs =>
              match findModuleDefinitionsInFiles env fuel rest with
              | none => none
              | some more => some (evs ++ more)).bind
            (fun a => (findModuleDefinitionsInFiles env fuel l₂).map (fun b => a ++ b))
      rw [hp]
      cases ha : findModuleDefinitionsInFiles env fuel rest with
      | none => rfl
      | some a =>
        cases hb : findModuleDefinitionsInFiles env fuel l₂ with
        | none => rfl
        | some b => simp [List.append_assoc]

/-- C9.  If the structure command fails for one file, that file
contributes exactly one error-channel report and no module output, and
the rest of the run is exactly the concatenation of the runs over the
files before and after it — a single-file failure never aborts the
overall run. -/
theorem C9_tool_failure_isolated (env : Env) (fuel : Nat) (fs₁ fs₂ : List Str)
    (f e : Str) (h : env.structureOf f = Except.error e) :
    processOneFile env fuel f = some [RunEvent.errorLogged f e] ∧
    findModuleDefinitionsInFiles env fuel (fs₁ ++ f :: fs₂)
      = (findModuleDefinitionsInFiles env fuel fs₁).bind
          (fun a => (findModuleDefinitionsInFiles env fuel fs₂).map
            (fun b => a ++ RunEvent.errorLogged f e :: b)) := by
  have h1 : processOneFile env fuel f = some [RunEvent.errorLogged f e] := by
    unfold processOneFile
    rw [h]
  refine ⟨h1, ?_⟩
  have h2 : findModuleDefinitionsInFiles env fuel (f :: fs₂)
      = (findModuleDefinitionsInFiles env fuel fs₂).map
          (fun b => RunEvent.errorLogged f e :: b) := by
    show (match processOneFile env fuel f with
      | none => none
      | some evs =>
        match findModuleDefinitionsInFiles env fuel fs₂ with
        | none => none
        | some more => some (evs ++ more)) = _
    rw [h1]
    cases hb : findModuleDefinitionsInFiles env fuel fs₂ with
    | none => rfl
    | some b => simp
  rw [findModuleDefinitionsInFiles_append, h2]
  cases ha : findModuleDefinitionsInFiles env fuel fs₁ with
  | none => rfl
  | some a =>
    cases hb : findModuleDefinitionsInFiles env fuel fs₂ with
    | none => rfl
    | some b => simp

/-- Witness environment for C9: the structure command always fails. -/
def C9Env : Env := ⟨fun _ => Except.error "boom".toList, fun _ _ => none, fun _ => []⟩

/-- Witness for C9 at a concrete failing file. -/
theorem C9_tool_failure_isolated_witness :
    processOneFile C9Env 1 "bad.swift".toList
      = some [RunEvent.errorLogged "bad.swift".toList "boom".toList] ∧
    findModuleDefinitionsInFiles C9Env 1 ([] ++ "bad.swift".toList :: [])
      = (findModuleDefinitionsInFiles C9Env 1 []).bind
          (fun a => (findModuleDefinitionsInFiles C9Env 1 []).map
            (fun b => a ++ RunEvent.errorLogged "bad.swift".toList "boom".toList :: b)) :=
  C9_tool_failure_isolated C9Env 1 [] [] "bad.swift".toList "boom".toList rfl
